import Mathlib

/-!
# Node registry of the network simulation (`swarm/netsim/node.go`)

A shallow embedding of the methods of `Simulation` defined in `node.go`:
`NodeIDs`, `UpNodeIDs`, `AddNodeWithName`, `AddNodeWithMsgEvents`, `AddNode`,
`SetPivotNode`, `PivotNodeID`, `StopNode`, `StopRandomNode` and `randomNode`.

The simulated network (`s.Net`, package `p2p/simulations`) is an external
collaborator: it is a parameter of every definition (`Network`), so every
theorem holds for all collaborators.  Go run-time panics are explicit results
(`Except Panic`).  The mutex `s.mu` is not modelled: the embedding is
sequential.
-/

namespace Netsim

/-- Run-time panics that the statements of `node.go` can raise. -/
inductive Panic where
  /-- Raised by `rand.Intn(n)` when `n <= 0`. -/
  | intnInvalidArgument
  /-- Raised by a slice expression `ids[i+1:]` when `i+1 > len(ids)`. -/
  | sliceBoundsOutOfRange
  /-- Raised by an index expression `ids[k]` when `k >= len(ids)`. -/
  | indexOutOfRange
  /-- Raised by a field or method access through a nil `*simulations.Node`. -/
  | nilPointerDereference
deriving DecidableEq, Repr

/-- Handle of a simulated node (`*simulations.Node`): the identifier returned by
`ID()`, the `Up` flag, and whether the dynamic type of the embedded
`adapters.Node` is `*adapters.SimNode` (what the type assertion in `randomNode`
tests).  The identifier type `ι` stands for `discover.NodeID`. -/
structure Node (ι : Type) where
  ID : ι
  Up : Bool
  isSimNode : Bool
deriving DecidableEq, Repr

/-- Node configuration (`adapters.NodeConfig`): the three fields `node.go`
writes, and `other` for all remaining fields (identifier, key, port, ...). -/
structure NodeConfig (ρ : Type) where
  Name : String
  EnableMsgEvents : Bool
  Services : List String
  other : ρ
deriving DecidableEq, Repr

/-- Errors seen by callers of the registry: the package-level `ErrNodeNotFound`
and errors produced by the collaborator (type `ε`).  Go's nil error is
`none : Option (Error ε)`. -/
inductive Error (ε : Type) where
  | ErrNodeNotFound
  | net (e : ε)
deriving DecidableEq, Repr

/-- State-changing calls made on the collaborator, in program order. -/
inductive Call (ι ρ : Type) where
  | NewNodeWithConfig (conf : NodeConfig ρ)
  | Start (id : ι)
  | Stop (id : ι)
deriving DecidableEq, Repr

/-- Operations of the simulated network that `node.go` calls, over an arbitrary
network state `σ`.  `GetNodes` and `GetNode` only read; the others return their
result together with the next network state.  `NewNodeWithConfig` returns a
node handle exactly when it returns no error.  `Stop` is the `Stop()` method
invoked on a node handle. -/
structure Network (σ ι ε ρ : Type) where
  GetNodes : σ → List (Node ι)
  GetNode : σ → ι → Option (Node ι)
  NewNodeWithConfig : σ → NodeConfig ρ → Except ε (Node ι) × σ
  Start : σ → ι → Option ε × σ
  Stop : σ → Node ι → Option ε × σ

/-- Fields of `Simulation` used by `node.go`: the network, the service names and
the pivot reference.  `calls` is a history variable recording the
state-changing collaborator calls made so far. -/
structure Simulation (σ ι ρ : Type) where
  Net : σ
  serviceNames : List String
  pivotNodeID : Option ι
  calls : List (Call ι ρ)

section Defs

variable {σ ι ε ρ : Type}

/-- Loop of `NodeIDs`: `for i, node := range nodes { ids[i] = node.ID() }`,
started at index `i`. -/
def NodeIDsLoop : List (Node ι) → Nat → List ι → List ι
  | [], _, ids => ids
  | node :: rest, i, ids => NodeIDsLoop rest (i + 1) (ids.set i node.ID)

/-- `Simulation.NodeIDs`: a zero-filled slice of `len(nodes)` entries, filled by
the loop.  The zero identifier is `default`. -/
def NodeIDs [Inhabited ι] (N : Network σ ι ε ρ) (s : Simulation σ ι ρ) : List ι :=
  let nodes := N.GetNodes s.Net
  NodeIDsLoop nodes 0 (List.replicate nodes.length default)

/-- Loop of `UpNodeIDs`: `if node.Up { ids = append(ids, node.ID()) }`. -/
def UpNodeIDsLoop : List (Node ι) → List ι → List ι
  | [], ids => ids
  | node :: rest, ids => UpNodeIDsLoop rest (if node.Up then ids ++ [node.ID] else ids)

/-- `Simulation.UpNodeIDs`: the loop started from the nil slice. -/
def UpNodeIDs (N : Network σ ι ε ρ) (s : Simulation σ ι ρ) : List ι :=
  UpNodeIDsLoop (N.GetNodes s.Net) []

/-- `AddNodeOption`: a function that mutates a node configuration. -/
abbrev AddNodeOption (ρ : Type) := NodeConfig ρ → NodeConfig ρ

/-- `AddNodeWithName`: the option `o.Name = name`. -/
def AddNodeWithName (name : String) : AddNodeOption ρ :=
  fun o => { o with Name := name }

/-- `AddNodeWithMsgEvents`: the option `o.EnableMsgEvents = enable`. -/
def AddNodeWithMsgEvents (enable : Bool) : AddNodeOption ρ :=
  fun o => { o with EnableMsgEvents := enable }

/-- Loop of `AddNode`: `for _, o := range opts { o(conf) }`. -/
def applyOptions : List (AddNodeOption ρ) → NodeConfig ρ → NodeConfig ρ
  | [], conf => conf
  | o :: opts, conf => applyOptions opts (o conf)

/-- Configuration that `AddNode` passes to `NewNodeWithConfig`: the generated
configuration `gen` (result of `adapters.RandomNodeConfig()`), after the options
and after `conf.Services = s.serviceNames`. -/
def AddNodeConf (s : Simulation σ ι ρ) (gen : NodeConfig ρ) (opts : List (AddNodeOption ρ)) :
    NodeConfig ρ :=
  let conf := applyOptions opts gen
  { conf with Services := s.serviceNames }

/-- `Simulation.AddNode`.  Returns `(id, err)` and the next state. -/
def AddNode [Inhabited ι] (N : Network σ ι ε ρ) (s : Simulation σ ι ρ) (gen : NodeConfig ρ)
    (opts : List (AddNodeOption ρ)) : (ι × Option (Error ε)) × Simulation σ ι ρ :=
  let conf := AddNodeConf s gen opts
  match N.NewNodeWithConfig s.Net conf with
  | (.error err, net1) =>
    ((default, some (.net err)),
      { s with Net := net1, calls := s.calls ++ [.NewNodeWithConfig conf] })
  | (.ok node, net1) =>
    match N.Start net1 node.ID with
    | (res, net2) =>
      ((node.ID, res.map .net),
        { s with Net := net2, calls := s.calls ++ [.NewNodeWithConfig conf, .Start node.ID] })

/-- `Simulation.SetPivotNode`: `s.pivotNodeID = &id`. -/
def SetPivotNode (s : Simulation σ ι ρ) (id : ι) : Simulation σ ι ρ :=
  { s with pivotNodeID := some id }

/-- `Simulation.PivotNodeID`: returns `s.pivotNodeID`, with the state after the
call. -/
def PivotNodeID (s : Simulation σ ι ρ) : Option ι × Simulation σ ι ρ :=
  (s.pivotNodeID, s)

/-- `Simulation.StopNode`: `s.Net.GetNode(id).Stop()`.  Calling `Stop` through a
nil `*Node` dereferences it. -/
def StopNode (N : Network σ ι ε ρ) (s : Simulation σ ι ρ) (id : ι) :
    Except Panic (Option (Error ε) × Simulation σ ι ρ) :=
  match N.GetNode s.Net id with
  | none => .error .nilPointerDereference
  | some n =>
    match N.Stop s.Net n with
    | (res, net1) => .ok (res.map .net, { s with Net := net1, calls := s.calls ++ [.Stop n.ID] })

/-- A Go slice of identifiers: the backing array and the length.  The capacity
is the length of `arr`. -/
structure Slice (ι : Type) where
  arr : List ι
  len : Nat
deriving DecidableEq, Repr

/-- The elements of a slice: the first `len` cells of its backing array. -/
def Slice.toList (s : Slice ι) : List ι := s.arr.take s.len

/-- The statement `ids = append(ids[:i], ids[i+1:]...)`: `ids[:i]` panics when
`i > cap(ids)` and `ids[i+1:]` panics when `i+1 > len(ids)`; otherwise the cells
`i+1 .. len-1` are copied in place to `i .. len-2` (the result fits the
capacity, so no new array is allocated), the cell `len-1` and the cells after
it keep their content, and the length drops by one. -/
def Slice.removeAt (s : Slice ι) (i : Nat) : Except Panic (Slice ι) :=
  if s.arr.length < i then .error .sliceBoundsOutOfRange
  else if s.len < i + 1 then .error .sliceBoundsOutOfRange
  else
    .ok { arr := s.arr.take i ++ ((s.arr.drop (i + 1)).take (s.len - (i + 1))
                  ++ s.arr.drop (s.len - 1)),
          len := s.len - 1 }

/-- Inner loop of `randomNode`, `for i, id := range ids { if id == e { ... } }`,
with `k` iterations left and the next index `i`.  The range expression is
evaluated once, so the number of iterations is the length of `ids` on entry,
while `id` is read from the backing array that the body updates in place.  The
read is always in range, since `i` stays below the length on entry. -/
def rangeLoop [DecidableEq ι] (e : ι) : Nat → Nat → Slice ι → Except Panic (Slice ι)
  | 0, _, ids => .ok ids
  | k + 1, i, ids =>
    match ids.arr[i]? with
    | none => .error .indexOutOfRange
    | some id =>
      if id = e then
        match ids.removeAt i with
        | .error p => .error p
        | .ok ids1 => rangeLoop e k (i + 1) ids1
      else rangeLoop e k (i + 1) ids

/-- Outer loop of `randomNode`: `for _, e := range exclude { ... }`. -/
def excludeLoop [DecidableEq ι] : List ι → Slice ι → Except Panic (Slice ι)
  | [], ids => .ok ids
  | e :: rest, ids =>
    match rangeLoop e ids.len 0 ids with
    | .error p => .error p
    | .ok ids1 => excludeLoop rest ids1

/-- `rand.Intn(n)` of the Go standard library: panics when `n <= 0`, otherwise
returns an index below `n`.  The raw output of the generator is `r`. -/
def Intn (r n : Nat) : Except Panic Nat :=
  if n = 0 then .error .intnInvalidArgument else .ok (r % n)

/-- The index expression `ids[k]`. -/
def Slice.index (s : Slice ι) (k : Nat) : Except Panic ι :=
  if k < s.len then
    match s.arr[k]? with
    | some id => .ok id
    | none => .error .indexOutOfRange
  else .error .indexOutOfRange

/-- The candidate slice `ids` of `randomNode` after the exclusion loops.  The
slice returned by `UpNodeIDs` is taken with capacity equal to its length: the
loops never touch a cell at or beyond the initial length. -/
def randomNodeCandidates [DecidableEq ι] (N : Network σ ι ε ρ) (s : Simulation σ ι ρ)
    (exclude : List ι) : Except Panic (Slice ι) :=
  let up := UpNodeIDs N s
  excludeLoop exclude { arr := up, len := up.length }

/-- `Simulation.randomNode` with generator output `r`: the result is the
`*adapters.SimNode` (`none` for nil), or a panic. -/
def randomNode [DecidableEq ι] (N : Network σ ι ε ρ) (s : Simulation σ ι ρ) (r : Nat)
    (exclude : List ι) : Except Panic (Option (Node ι)) :=
  match randomNodeCandidates N s exclude with
  | .error p => .error p
  | .ok ids =>
    match Intn r ids.len with
    | .error p => .error p
    | .ok k =>
      match ids.index k with
      | .error p => .error p
      | .ok id =>
        match N.GetNode s.Net id with
        | none => .error .nilPointerDereference
        | some n => .ok (if n.isSimNode then some n else none)

/-- `Simulation.StopRandomNode` with generator output `r`. -/
def StopRandomNode [DecidableEq ι] (N : Network σ ι ε ρ) (s : Simulation σ ι ρ) (r : Nat) :
    Except Panic (Option (Error ε) × Simulation σ ι ρ) :=
  match randomNode N s r [] with
  | .error p => .error p
  | .ok none => .ok (some .ErrNodeNotFound, s)
  | .ok (some n) =>
    match N.Stop s.Net n with
    | (res, net1) => .ok (res.map .net, { s with Net := net1, calls := s.calls ++ [.Stop n.ID] })

/-- The identifier `ids[rand.Intn(len(ids))]` that `randomNode` passes to
`GetNode`, with generator output `r`. -/
def randomNodeID [DecidableEq ι] (N : Network σ ι ε ρ) (s : Simulation σ ι ρ) (r : Nat)
    (exclude : List ι) : Except Panic ι :=
  match randomNodeCandidates N s exclude with
  | .error p => .error p
  | .ok ids =>
    match Intn r ids.len with
    | .error p => .error p
    | .ok k => ids.index k

/-- A sequence of `AddNode` calls without options, one for each generated
configuration: the results in call order, and the final state. -/
def AddNodeSeq [Inhabited ι] (N : Network σ ι ε ρ) :
    List (NodeConfig ρ) → Simulation σ ι ρ → List (ι × Option (Error ε)) × Simulation σ ι ρ
  | [], s => ([], s)
  | gen :: gens, s =>
    let r := AddNode N s gen []
    let rest := AddNodeSeq N gens r.2
    (r.1 :: rest.1, rest.2)

/-- One call of a method of `node.go` other than `SetPivotNode` that returns
(does not panic), taking the registry from the first state to the second. -/
inductive StepWithoutSetPivot [DecidableEq ι] [Inhabited ι] (N : Network σ ι ε ρ) :
    Simulation σ ι ρ → Simulation σ ι ρ → Prop where
  | nodeIDs (s : Simulation σ ι ρ) : StepWithoutSetPivot N s s
  | upNodeIDs (s : Simulation σ ι ρ) : StepWithoutSetPivot N s s
  | addNode (s : Simulation σ ι ρ) (gen : NodeConfig ρ) (opts : List (AddNodeOption ρ)) :
      StepWithoutSetPivot N s (AddNode N s gen opts).2
  | pivotNodeID (s : Simulation σ ι ρ) : StepWithoutSetPivot N s (PivotNodeID s).2
  | stopNode (s s1 : Simulation σ ι ρ) (id : ι) (res : Option (Error ε)) :
      StopNode N s id = .ok (res, s1) → StepWithoutSetPivot N s s1
  | stopRandomNode (s s1 : Simulation σ ι ρ) (r : Nat) (res : Option (Error ε)) :
      StopRandomNode N s r = .ok (res, s1) → StepWithoutSetPivot N s s1

end Defs

/-! ## A concrete collaborator for evaluating the definitions -/

/-- Errors of the concrete collaborator `listNet`. -/
inductive NetError where
  | nodeExists
  | nodeNotFound
  | alreadyUp
  | alreadyDown
  | startFailed
deriving DecidableEq, Repr

/-- Modelled from the spec: the simulated network collaborator (package
`p2p/simulations`, not part of `node.go`), as a list of node handles with
identifiers in `Nat`.  Following the spec, an identifier names one node for its
lifetime and the `Up` flag is true while the node is started and false after a
stop or before a start: creation appends a node that is not up and fails when
the identifier carried by the configuration is taken, start sets the `Up` flag,
stop clears it, and a lookup of an unknown identifier gives no handle. -/
def listNet : Network (List (Node Nat)) Nat NetError Nat where
  GetNodes := fun net => net
  GetNode := fun net id => net.find? (fun n => n.ID == id)
  NewNodeWithConfig := fun net conf =>
    if net.any (fun n => n.ID == conf.other) then (.error .nodeExists, net)
    else (.ok { ID := conf.other, Up := false, isSimNode := true },
          net ++ [{ ID := conf.other, Up := false, isSimNode := true }])
  Start := fun net id =>
    match net.find? (fun n => n.ID == id) with
    | none => (some .nodeNotFound, net)
    | some n =>
      if n.Up then (some .alreadyUp, net)
      else (none, net.map (fun m => if m.ID == id then { m with Up := true } else m))
  Stop := fun net n =>
    match net.find? (fun m => m.ID == n.ID) with
    | none => (some .nodeNotFound, net)
    | some m =>
      if m.Up then
        (none, net.map (fun k => if k.ID == n.ID then { k with Up := false } else k))
      else (some .alreadyDown, net)

/-- The collaborator `listNet` with a `Start` operation that always fails. -/
def failingStartNet : Network (List (Node Nat)) Nat NetError Nat :=
  { listNet with Start := fun net _ => (some .startFailed, net) }

/-- A registry over `listNet` with the given nodes, no pivot and no calls made. -/
def listSim (net : List (Node Nat)) : Simulation (List (Node Nat)) Nat Nat :=
  { Net := net, serviceNames := ["bzz"], pivotNodeID := none, calls := [] }

/-- Three nodes: 1 and 3 are up, 2 is stopped. -/
def threeNodes : List (Node Nat) :=
  [{ ID := 1, Up := true, isSimNode := true }, { ID := 2, Up := false, isSimNode := true },
   { ID := 3, Up := true, isSimNode := true }]

/-- Two nodes, both stopped. -/
def stoppedNodes : List (Node Nat) :=
  [{ ID := 1, Up := false, isSimNode := true }, { ID := 2, Up := false, isSimNode := true }]

/-- Three nodes, all up. -/
def activeNodes : List (Node Nat) :=
  [{ ID := 1, Up := true, isSimNode := true }, { ID := 2, Up := true, isSimNode := true },
   { ID := 3, Up := true, isSimNode := true }]

/-- One node that is up and whose implementation is not a `*adapters.SimNode`. -/
def foreignNodes : List (Node Nat) :=
  [{ ID := 1, Up := true, isSimNode := false }]

/-- A generated configuration carrying the identifier `id`. -/
def genConf (id : Nat) : NodeConfig Nat :=
  { Name := "node", EnableMsgEvents := false, Services := [], other := id }

/-! ## Auxiliary lemmas -/

section Lemmas

variable {σ ι ε ρ : Type}

theorem UpNodeIDsLoop_eq (nodes : List (Node ι)) (acc : List ι) :
    UpNodeIDsLoop nodes acc = acc ++ (nodes.filter (fun n => n.Up)).map (fun n => n.ID) := by
  induction nodes generalizing acc with
  | nil => simp [UpNodeIDsLoop]
  | cons n rest ih =>
    cases h : n.Up <;> simp [UpNodeIDsLoop, ih, h]

theorem UpNodeIDs_eq (N : Network σ ι ε ρ) (s : Simulation σ ι ρ) :
    UpNodeIDs N s = ((N.GetNodes s.Net).filter (fun n => n.Up)).map (fun n => n.ID) := by
  simp [UpNodeIDs, UpNodeIDsLoop_eq]

theorem NodeIDsLoop_eq (nodes : List (Node ι)) (pre post : List ι)
    (h : post.length = nodes.length) :
    NodeIDsLoop nodes pre.length (pre ++ post) = pre ++ nodes.map (fun n => n.ID) := by
  induction nodes generalizing pre post with
  | nil =>
    have : post = [] := List.length_eq_zero.mp (by simpa using h)
    simp [NodeIDsLoop, this]
  | cons n rest ih =>
    cases post with
    | nil => simp at h
    | cons z post1 =>
      have h1 : post1.length = rest.length := by simpa using h
      have hset : (pre ++ z :: post1).set pre.length n.ID = (pre ++ [n.ID]) ++ post1 := by
        simp [List.set_append]
      have hlen : pre.length + 1 = (pre ++ [n.ID]).length := by simp
      rw [NodeIDsLoop, hset, hlen, ih (pre ++ [n.ID]) post1 h1]
      simp

theorem NodeIDs_eq [Inhabited ι] (N : Network σ ι ε ρ) (s : Simulation σ ι ρ) :
    NodeIDs N s = (N.GetNodes s.Net).map (fun n => n.ID) := by
  have := NodeIDsLoop_eq (N.GetNodes s.Net) [] (List.replicate (N.GetNodes s.Net).length default)
    (by simp)
  simpa [NodeIDs] using this

theorem getElem?_append_cons_length (a r : List ι) (x : ι) :
    (a ++ x :: r)[a.length]? = some x := by
  rw [List.getElem?_append_right (Nat.le_refl _)]
  simp

theorem rangeLoop_cons_ne [DecidableEq ι] (e x : ι) (k : Nat) (a r : List ι) (len : Nat)
    (hx : ¬ x = e) :
    rangeLoop e (k + 1) a.length { arr := a ++ x :: r, len := len }
      = rangeLoop e k (a.length + 1) { arr := a ++ x :: r, len := len } := by
  rw [rangeLoop]
  simp only [getElem?_append_cons_length, if_neg hx]

theorem rangeLoop_cons_eq [DecidableEq ι] (e : ι) (k : Nat) (a r : List ι) (len : Nat) :
    rangeLoop e (k + 1) a.length { arr := a ++ e :: r, len := len }
      = match Slice.removeAt { arr := a ++ e :: r, len := len } a.length with
        | .error p => .error p
        | .ok ids1 => rangeLoop e k (a.length + 1) ids1 := by
  rw [rangeLoop]
  simp only [getElem?_append_cons_length, if_true]

/-- A pass of the inner loop over cells that all differ from `e` changes
nothing. -/
theorem rangeLoop_no_match [DecidableEq ι] (e : ι) (c a t : List ι) (len : Nat) (h : e ∉ c) :
    rangeLoop e c.length a.length { arr := a ++ (c ++ t), len := len }
      = .ok { arr := a ++ (c ++ t), len := len } := by
  induction c generalizing a with
  | nil => simp [rangeLoop]
  | cons x c1 ih =>
    have hx : ¬ x = e := fun hxe => h (by simp [hxe])
    have hc1 : e ∉ c1 := fun hm => h (by simp [hm])
    have ih1 := ih (a ++ [x]) hc1
    simp only [List.length_append, List.length_singleton, List.append_assoc,
      List.singleton_append] at ih1
    simp only [List.length_cons, List.cons_append]
    rw [rangeLoop_cons_ne e x _ a _ len hx]
    exact ih1

theorem drop_length_cons (x : ι) (c : List ι) :
    ∃ z, (x :: c).drop c.length = [z] ∧ (c = [] ∨ z ∈ c) := by
  induction c generalizing x with
  | nil => exact ⟨x, by simp⟩
  | cons y c1 ih =>
    obtain ⟨z, hz, hmem⟩ := ih y
    refine ⟨z, by simpa using hz, Or.inr ?_⟩
    rcases hmem with h | h
    · subst h
      simp at hz
      simp [hz]
    · simp [h]

/-- Removing the cell at the start of the window `x :: c` shifts `c` down by one
cell and leaves the last cell of the window in place behind it. -/
theorem removeAt_append_cons (a c t : List ι) (x : ι) :
    Slice.removeAt { arr := a ++ (x :: c ++ t), len := a.length + (x :: c).length } a.length
      = .ok { arr := a ++ (c ++ ((x :: c).drop c.length ++ t)), len := a.length + c.length } := by
  have h0 : ¬ ((a ++ (x :: c ++ t)).length < a.length) := by simp
  have h1 : ¬ (a.length + (c.length + 1) < a.length + 1) := by omega
  have h2 : a.length + (c.length + 1) - (a.length + 1) = c.length := by omega
  have h3 : a.length + (c.length + 1) - 1 = a.length + c.length := by omega
  simp only [Slice.removeAt, if_neg h0, List.length_cons, if_neg h1, h2, h3]
  congr 2
  have d1 : List.drop (a.length + 1) a = [] := List.drop_eq_nil_of_le (by omega)
  have d2 : List.drop (a.length + c.length) a = [] := List.drop_eq_nil_of_le (by omega)
  have d3 : List.drop c.length (x :: (c ++ t)) = List.drop c.length (x :: c) ++ t := by
    have hle : c.length ≤ (x :: c).length := by simp
    have := @List.drop_append_of_le_length _ (x :: c) t c.length hle
    simpa using this
  simp [List.take_append, List.drop_append, List.drop_append_eq_append_drop, d1, d2, d3]

/-- On a window without duplicates, one pass of the inner loop for `e` returns
and leaves exactly the cells different from `e`, in order. -/
theorem rangeLoop_nodup [DecidableEq ι] (e : ι) (c a t : List ι) (hc : c.Nodup) :
    ∃ t1, rangeLoop e c.length a.length { arr := a ++ (c ++ t), len := a.length + c.length }
      = .ok { arr := a ++ (c.filter (fun x => decide (x ≠ e)) ++ t1),
              len := a.length + (c.filter (fun x => decide (x ≠ e))).length } := by
  induction c generalizing a with
  | nil => exact ⟨t, by simp [rangeLoop]⟩
  | cons x c1 ih =>
    have hx1 : x ∉ c1 := (List.nodup_cons.mp hc).1
    have hc1 : c1.Nodup := (List.nodup_cons.mp hc).2
    by_cases hx : x = e
    · subst hx
      have hfil : (x :: c1).filter (fun y => decide (y ≠ x)) = c1 := by
        rw [List.filter_cons_of_neg (by simp)]
        exact List.filter_eq_self.mpr (fun y hy => by
          have : y ≠ x := fun h => hx1 (h ▸ hy)
          simpa using this)
      obtain ⟨z, hz, hmem⟩ := drop_length_cons x c1
      refine ⟨z :: t, ?_⟩
      rw [hfil]
      simp only [List.length_cons, List.cons_append]
      rw [rangeLoop_cons_eq]
      have hrem := removeAt_append_cons a c1 t x
      simp only [List.length_cons, List.cons_append] at hrem
      rw [hrem, hz]
      simp only [List.singleton_append]
      cases c1 with
      | nil => simp [rangeLoop]
      | cons y c2 =>
        have hzmem : z ∈ y :: c2 := by
          rcases hmem with h | h
          · simp at h
          · exact h
        have hnot : x ∉ c2 ++ [z] := by
          intro hm
          rcases List.mem_append.mp hm with h | h
          · exact hx1 (by simp [h])
          · have : x = z := by simpa using h
            exact hx1 (this ▸ hzmem)
        have := rangeLoop_no_match x (c2 ++ [z]) (a ++ [y]) t (a.length + (y :: c2).length) hnot
        simpa using this
    · obtain ⟨t1, h1⟩ := ih (a ++ [x]) hc1
      refine ⟨t1, ?_⟩
      have hfil : (x :: c1).filter (fun y => decide (y ≠ e))
          = x :: c1.filter (fun y => decide (y ≠ e)) := by
        rw [List.filter_cons_of_pos (by simpa using hx)]
      rw [hfil]
      simp only [List.length_cons, List.cons_append]
      rw [rangeLoop_cons_ne e x _ a _ _ hx]
      simp only [List.length_append, List.length_singleton, List.append_assoc,
        List.singleton_append] at h1
      have e1 : a.length + (c1.length + 1) = a.length + 1 + c1.length := by omega
      have e2 : a.length + ((c1.filter (fun y => decide (y ≠ e))).length + 1)
          = a.length + 1 + (c1.filter (fun y => decide (y ≠ e))).length := by omega
      rw [e1, e2]
      exact h1

/-- On a slice without duplicates the exclusion loops return and leave exactly
the identifiers that are not in `exclude`, in order. -/
theorem excludeLoop_nodup [DecidableEq ι] (exclude w t : List ι) (hw : w.Nodup) :
    ∃ t1, excludeLoop exclude { arr := w ++ t, len := w.length }
      = .ok { arr := w.filter (fun x => decide (x ∉ exclude)) ++ t1,
              len := (w.filter (fun x => decide (x ∉ exclude))).length } := by
  induction exclude generalizing w t with
  | nil => exact ⟨t, by simp [excludeLoop]⟩
  | cons e rest ih =>
    obtain ⟨t1, h1⟩ := rangeLoop_nodup e w [] t hw
    simp only [List.length_nil, List.nil_append, Nat.zero_add] at h1
    obtain ⟨t2, h2⟩ := ih (w.filter (fun x => decide (x ≠ e))) t1 (hw.filter _)
    refine ⟨t2, ?_⟩
    rw [excludeLoop]
    simp only [h1, h2]
    have hff : List.filter (fun x => decide (x ∉ rest)) (List.filter (fun x => decide (x ≠ e)) w)
        = List.filter (fun x => decide (x ∉ e :: rest)) w := by
      rw [List.filter_filter]
      congr 1
      funext x
      simp [not_or, Bool.and_comm]
    rw [hff]

/-- The candidate slice of `randomNode` when the active identifiers have no
duplicates. -/
theorem randomNodeCandidates_nodup [DecidableEq ι] (N : Network σ ι ε ρ) (s : Simulation σ ι ρ)
    (exclude : List ι) (hnd : (UpNodeIDs N s).Nodup) :
    ∃ t1, randomNodeCandidates N s exclude
      = .ok { arr := (UpNodeIDs N s).filter (fun x => decide (x ∉ exclude)) ++ t1,
              len := ((UpNodeIDs N s).filter (fun x => decide (x ∉ exclude))).length } := by
  have := excludeLoop_nodup exclude (UpNodeIDs N s) [] hnd
  simpa [randomNodeCandidates] using this

/-- With an empty active list `randomNode` reaches `rand.Intn(0)`. -/
theorem randomNode_nil_of_no_up [DecidableEq ι] (N : Network σ ι ε ρ) (s : Simulation σ ι ρ)
    (r : Nat) (h : UpNodeIDs N s = []) :
    randomNode N s r [] = .error .intnInvalidArgument := by
  simp [randomNode, randomNodeCandidates, excludeLoop, h, Intn]

/-- The result of `AddNode` when the node constructor fails. -/
theorem AddNode_of_error [Inhabited ι] (N : Network σ ι ε ρ) (s : Simulation σ ι ρ)
    (gen : NodeConfig ρ) (opts : List (AddNodeOption ρ)) (err : ε) (net1 : σ)
    (h : N.NewNodeWithConfig s.Net (AddNodeConf s gen opts) = (.error err, net1)) :
    AddNode N s gen opts
      = ((default, some (Error.net err)),
          { s with Net := net1,
                   calls := s.calls ++ [Call.NewNodeWithConfig (AddNodeConf s gen opts)] }) := by
  simp only [AddNode, h]

/-- The result of `AddNode` when the node constructor succeeds. -/
theorem AddNode_of_ok [Inhabited ι] (N : Network σ ι ε ρ) (s : Simulation σ ι ρ)
    (gen : NodeConfig ρ) (opts : List (AddNodeOption ρ)) (node : Node ι) (net1 : σ)
    (h : N.NewNodeWithConfig s.Net (AddNodeConf s gen opts) = (.ok node, net1)) :
    AddNode N s gen opts
      = ((node.ID, (N.Start net1 node.ID).1.map Error.net),
          { s with Net := (N.Start net1 node.ID).2,
                   calls := s.calls ++ [Call.NewNodeWithConfig (AddNodeConf s gen opts),
                                        Call.Start node.ID] }) := by
  simp only [AddNode, h]

/-- The calls `AddNode` adds to the history. -/
theorem AddNode_calls [Inhabited ι] (N : Network σ ι ε ρ) (s : Simulation σ ι ρ)
    (gen : NodeConfig ρ) (opts : List (AddNodeOption ρ)) :
    (AddNode N s gen opts).2.calls = s.calls ++ [Call.NewNodeWithConfig (AddNodeConf s gen opts)]
    ∨ ∃ id, (AddNode N s gen opts).2.calls
        = s.calls ++ [Call.NewNodeWithConfig (AddNodeConf s gen opts), Call.Start id] := by
  rcases h : N.NewNodeWithConfig s.Net (AddNodeConf s gen opts) with ⟨res, net1⟩
  cases res with
  | error err => exact Or.inl (by rw [AddNode_of_error N s gen opts err net1 h])
  | ok node => exact Or.inr ⟨node.ID, by rw [AddNode_of_ok N s gen opts node net1 h]⟩

theorem AddNode_pivotNodeID [Inhabited ι] (N : Network σ ι ε ρ) (s : Simulation σ ι ρ)
    (gen : NodeConfig ρ) (opts : List (AddNodeOption ρ)) :
    (AddNode N s gen opts).2.pivotNodeID = s.pivotNodeID := by
  rcases h : N.NewNodeWithConfig s.Net (AddNodeConf s gen opts) with ⟨res, net1⟩
  cases res with
  | error err => rw [AddNode_of_error N s gen opts err net1 h]
  | ok node => rw [AddNode_of_ok N s gen opts node net1 h]

theorem StopNode_pivotNodeID (N : Network σ ι ε ρ) (s s1 : Simulation σ ι ρ) (id : ι)
    (res : Option (Error ε)) (h : StopNode N s id = .ok (res, s1)) :
    s1.pivotNodeID = s.pivotNodeID := by
  unfold StopNode at h
  cases hg : N.GetNode s.Net id with
  | none => simp [hg] at h
  | some n =>
    simp only [hg, Except.ok.injEq, Prod.mk.injEq] at h
    rw [← h.2]

theorem StopRandomNode_pivotNodeID [DecidableEq ι] (N : Network σ ι ε ρ)
    (s s1 : Simulation σ ι ρ) (r : Nat) (res : Option (Error ε))
    (h : StopRandomNode N s r = .ok (res, s1)) :
    s1.pivotNodeID = s.pivotNodeID := by
  unfold StopRandomNode at h
  cases hr : randomNode N s r [] with
  | error p => simp [hr] at h
  | ok o =>
    cases o with
    | none =>
      simp only [hr, Except.ok.injEq, Prod.mk.injEq] at h
      rw [← h.2]
    | some n =>
      simp only [hr, Except.ok.injEq, Prod.mk.injEq] at h
      rw [← h.2]

theorem applyOptions_eq_foldl (opts : List (AddNodeOption ρ)) (conf : NodeConfig ρ) :
    applyOptions opts conf = opts.foldl (fun c o => o c) conf := by
  induction opts generalizing conf with
  | nil => rfl
  | cons o rest ih => simp [applyOptions, ih]

theorem applyOptions_append (opts1 opts2 : List (AddNodeOption ρ)) (conf : NodeConfig ρ) :
    applyOptions (opts1 ++ opts2) conf = applyOptions opts2 (applyOptions opts1 conf) := by
  simp [applyOptions_eq_foldl]

/-- No method other than `SetPivotNode` writes the pivot reference. -/
theorem StepWithoutSetPivot_pivot [DecidableEq ι] [Inhabited ι] (N : Network σ ι ε ρ)
    (s s1 : Simulation σ ι ρ) (h : StepWithoutSetPivot N s s1) :
    s1.pivotNodeID = s.pivotNodeID := by
  cases h
  · rfl
  · rfl
  · exact AddNode_pivotNodeID N s _ _
  · rfl
  · exact StopNode_pivotNodeID N s s1 _ _ (by assumption)
  · exact StopRandomNode_pivotNodeID N s s1 _ _ (by assumption)

/-- A registry whose pivot is unset keeps it unset along any sequence of calls
that does not contain `SetPivotNode`. -/
theorem pivot_unset_of_no_SetPivotNode [DecidableEq ι] [Inhabited ι] (N : Network σ ι ε ρ)
    (s0 s : Simulation σ ι ρ) (h0 : s0.pivotNodeID = none)
    (h : Relation.ReflTransGen (StepWithoutSetPivot N) s0 s) : s.pivotNodeID = none := by
  induction h with
  | refl => exact h0
  | tail _ hstep ih => rw [StepWithoutSetPivot_pivot N _ _ hstep, ih]

theorem randomNode_eq_of_randomNodeID [DecidableEq ι] (N : Network σ ι ε ρ)
    (s : Simulation σ ι ρ) (r : Nat) (exclude : List ι) :
    randomNode N s r exclude
      = match randomNodeID N s r exclude with
        | .error p => .error p
        | .ok id =>
          match N.GetNode s.Net id with
          | none => .error .nilPointerDereference
          | some n => .ok (if n.isSimNode then some n else none) := by
  unfold randomNode randomNodeID
  rcases h1 : randomNodeCandidates N s exclude with p | ids
  · rfl
  · simp only []
    rcases h2 : Intn r ids.len with p | k
    · rfl
    · rfl

theorem StopNode_of_some (N : Network σ ι ε ρ) (s : Simulation σ ι ρ) (id : ι) (n : Node ι)
    (h : N.GetNode s.Net id = some n) :
    StopNode N s id
      = .ok ((N.Stop s.Net n).1.map Error.net,
          { s with Net := (N.Stop s.Net n).2, calls := s.calls ++ [Call.Stop n.ID] }) := by
  simp only [StopNode, h]

theorem take_length_append (w t : List ι) : (w ++ t).take w.length = w := by
  simp

theorem listNet_Stop_none (net net1 : List (Node Nat)) (n : Node Nat)
    (h : listNet.Stop net n = (none, net1)) :
    (∃ m ∈ net, m.ID = n.ID ∧ m.Up = true) ∧
    net1 = net.map (fun k => if k.ID == n.ID then { k with Up := false } else k) := by
  simp only [listNet] at h
  cases hf : net.find? (fun m => m.ID == n.ID) with
  | none => simp [hf] at h
  | some m =>
    simp only [hf] at h
    cases hu : m.Up with
    | false => simp [hu] at h
    | true =>
      simp only [hu, if_true, Prod.mk.injEq, true_and] at h
      refine ⟨⟨m, List.mem_of_find?_eq_some hf, ?_, hu⟩, h.symm⟩
      simpa using List.find?_some hf

theorem map_clear_ids (net : List (Node Nat)) (id : Nat) :
    (net.map (fun k => if k.ID == id then { k with Up := false } else k)).map (fun n => n.ID)
      = net.map (fun n => n.ID) := by
  rw [List.map_map]
  apply List.map_congr_left
  intro k _
  simp only [Function.comp]
  split <;> rfl

theorem up_ids_after_clear (net : List (Node Nat)) (id : Nat) :
    ((net.map (fun k => if k.ID == id then { k with Up := false } else k)).filter
        (fun n => n.Up)).map (fun n => n.ID)
      = (((net.filter (fun n => n.Up)).map (fun n => n.ID))).filter (fun x => decide (x ≠ id)) := by
  induction net with
  | nil => rfl
  | cons k rest ih =>
    simp only [beq_iff_eq, ne_eq, decide_not] at ih
    by_cases hk : k.ID = id
    · cases hu : k.Up <;> simp [List.filter_cons, hk, hu, ih]
    · cases hu : k.Up <;> simp [List.filter_cons, hk, hu, ih]

theorem filter_ne_eq_erase (l : List Nat) (id : Nat) (h : l.Nodup) :
    l.filter (fun x => decide (x ≠ id)) = l.erase id := by
  rw [h.erase_eq_filter]
  congr 1
  funext x
  by_cases hx : x = id <;> simp [hx]

theorem up_ids_nodup (net : List (Node Nat)) (h : (net.map (fun n => n.ID)).Nodup) :
    ((net.filter (fun n => n.Up)).map (fun n => n.ID)).Nodup :=
  h.sublist (List.Sublist.map _ (List.filter_sublist _))

/-- Effect of a successful `Stop` of `listNet` on the two enumerations. -/
theorem listNet_Stop_effect (net net1 : List (Node Nat)) (n : Node Nat)
    (h : listNet.Stop net n = (none, net1)) :
    n.ID ∈ (net.filter (fun n => n.Up)).map (fun n => n.ID) ∧
    n.ID ∉ (net1.filter (fun n => n.Up)).map (fun n => n.ID) ∧
    net1.map (fun n => n.ID) = net.map (fun n => n.ID) ∧
    ((net.map (fun n => n.ID)).Nodup →
      ((net1.filter (fun n => n.Up)).map (fun n => n.ID)).length + 1
        = ((net.filter (fun n => n.Up)).map (fun n => n.ID)).length) := by
  obtain ⟨⟨m, hm, hid, hup⟩, hnet⟩ := listNet_Stop_none net net1 n h
  have hmem : n.ID ∈ (net.filter (fun n => n.Up)).map (fun n => n.ID) :=
    List.mem_map.mpr ⟨m, List.mem_filter.mpr ⟨hm, by simpa using hup⟩, hid⟩
  subst hnet
  refine ⟨hmem, ?_, map_clear_ids net n.ID, ?_⟩
  · rw [up_ids_after_clear]
    simp [List.mem_filter]
  · intro hnd
    rw [up_ids_after_clear, filter_ne_eq_erase _ _ (up_ids_nodup net hnd),
      List.length_erase_of_mem hmem]
    have := List.length_pos_of_mem hmem
    omega

theorem listNet_UpNodeIDs (s : Simulation (List (Node Nat)) Nat Nat) :
    UpNodeIDs listNet s = (s.Net.filter (fun n => n.Up)).map (fun n => n.ID) :=
  UpNodeIDs_eq listNet s

theorem listNet_NodeIDs (s : Simulation (List (Node Nat)) Nat Nat) :
    NodeIDs listNet s = s.Net.map (fun n => n.ID) :=
  NodeIDs_eq listNet s

theorem listNet_GetNode_ID (net : List (Node Nat)) (id : Nat) (n : Node Nat)
    (h : listNet.GetNode net id = some n) : n.ID = id := by
  simp only [listNet] at h
  simpa using List.find?_some h

/-- Effect of a successful `StopNode` on a registry over `listNet`. -/
theorem listNet_StopNode_effect (s s1 : Simulation (List (Node Nat)) Nat Nat) (id : Nat)
    (h : StopNode listNet s id = .ok (none, s1)) :
    id ∈ UpNodeIDs listNet s ∧ id ∉ UpNodeIDs listNet s1 ∧
    NodeIDs listNet s1 = NodeIDs listNet s ∧
    ((NodeIDs listNet s).Nodup →
      (UpNodeIDs listNet s1).length + 1 = (UpNodeIDs listNet s).length) := by
  cases hg : listNet.GetNode s.Net id with
  | none => simp [StopNode, hg] at h
  | some n =>
    rw [StopNode_of_some listNet s id n hg] at h
    rcases hst : listNet.Stop s.Net n with ⟨res, net1⟩
    simp only [hst, Except.ok.injEq, Prod.mk.injEq, Option.map_eq_none'] at h
    obtain ⟨hres, hs1⟩ := h
    subst hres
    have hid := listNet_GetNode_ID s.Net id n hg
    have heff := listNet_Stop_effect s.Net net1 n hst
    rw [hid] at heff
    simp only [listNet_UpNodeIDs, listNet_NodeIDs, ← hs1]
    exact heff

/-- Effect of a successful `StopRandomNode` on a registry over `listNet`. -/
theorem listNet_StopRandomNode_effect (s s1 : Simulation (List (Node Nat)) Nat Nat) (r : Nat)
    (h : StopRandomNode listNet s r = .ok (none, s1)) :
    ∃ n, randomNode listNet s r [] = .ok (some n) ∧
      n.ID ∈ UpNodeIDs listNet s ∧ n.ID ∉ UpNodeIDs listNet s1 ∧
      NodeIDs listNet s1 = NodeIDs listNet s ∧
      ((NodeIDs listNet s).Nodup →
        (UpNodeIDs listNet s1).length + 1 = (UpNodeIDs listNet s).length) := by
  unfold StopRandomNode at h
  rcases hr : randomNode listNet s r [] with p | o
  · simp [hr] at h
  · cases o with
    | none => simp [hr] at h
    | some n =>
      rcases hst : listNet.Stop s.Net n with ⟨res, net1⟩
      simp only [hr, hst, Except.ok.injEq, Prod.mk.injEq, Option.map_eq_none'] at h
      obtain ⟨hres, hs1⟩ := h
      subst hres
      have heff := listNet_Stop_effect s.Net net1 n hst
      refine ⟨n, rfl, ?_⟩
      simp only [listNet_UpNodeIDs, listNet_NodeIDs, ← hs1]
      exact heff

theorem listNet_find_new (net : List (Node Nat)) (id : Nat)
    (h : net.any (fun n => n.ID == id) = false) :
    (net ++ [Node.mk id false true]).find? (fun n => n.ID == id) = some (Node.mk id false true) := by
  have hnone : net.find? (fun n => n.ID == id) = none := by
    rw [List.find?_eq_none]
    intro x hx
    have := List.any_eq_false.mp h x hx
    simpa using this
  simp [List.find?_append, hnone]

/-- A call of `AddNode` without options on a registry over `listNet` that returns
no error: the identifier carried by the generated configuration was free, and
the new node is appended and started. -/
theorem listNet_AddNode_none (s : Simulation (List (Node Nat)) Nat Nat) (gen : NodeConfig Nat)
    (h : (AddNode listNet s gen []).1.2 = none) :
    gen.other ∉ NodeIDs listNet s ∧
    (AddNode listNet s gen []).1.1 = gen.other ∧
    (AddNode listNet s gen []).2.Net
      = (s.Net ++ [Node.mk gen.other false true]).map
          (fun m => if m.ID == gen.other then { m with Up := true } else m) := by
  have hconf : (AddNodeConf s gen []).other = gen.other := rfl
  cases hany : s.Net.any (fun n => n.ID == gen.other) with
  | true =>
    have hnew : listNet.NewNodeWithConfig s.Net (AddNodeConf s gen [])
        = (.error .nodeExists, s.Net) := by
      simp only [listNet, hconf, hany, if_true]
    rw [AddNode_of_error listNet s gen [] _ _ hnew] at h
    simp at h
  | false =>
    have hnew : listNet.NewNodeWithConfig s.Net (AddNodeConf s gen [])
        = (.ok (Node.mk gen.other false true), s.Net ++ [Node.mk gen.other false true]) := by
      simp only [listNet, hconf, hany, Bool.false_eq_true, if_false]
    have hstart : listNet.Start (s.Net ++ [Node.mk gen.other false true]) gen.other
        = (none, (s.Net ++ [Node.mk gen.other false true]).map
            (fun m => if m.ID == gen.other then { m with Up := true } else m)) := by
      simp only [listNet, listNet_find_new s.Net gen.other hany]
      simp
    rw [AddNode_of_ok listNet s gen [] _ _ hnew]
    refine ⟨?_, rfl, by rw [hstart]⟩
    rw [listNet_NodeIDs]
    intro hmem
    obtain ⟨x, hx, hxid⟩ := List.mem_map.mp hmem
    have := List.any_eq_false.mp hany x hx
    simp [hxid] at this

theorem map_setUp_ids (net : List (Node Nat)) (id : Nat) :
    (net.map (fun m => if m.ID == id then { m with Up := true } else m)).map (fun n => n.ID)
      = net.map (fun n => n.ID) := by
  rw [List.map_map]
  apply List.map_congr_left
  intro k _
  simp only [Function.comp]
  split <;> rfl

/-- Effect of a successful `AddNode` without options on the enumerations. -/
theorem listNet_AddNode_effect (s : Simulation (List (Node Nat)) Nat Nat) (gen : NodeConfig Nat)
    (h : (AddNode listNet s gen []).1.2 = none) :
    (AddNode listNet s gen []).1.1 ∉ NodeIDs listNet s ∧
    NodeIDs listNet (AddNode listNet s gen []).2
      = NodeIDs listNet s ++ [(AddNode listNet s gen []).1.1] ∧
    (AddNode listNet s gen []).1.1 ∈ UpNodeIDs listNet (AddNode listNet s gen []).2 := by
  obtain ⟨hfree, hid, hnet⟩ := listNet_AddNode_none s gen h
  rw [hid]
  refine ⟨hfree, ?_, ?_⟩
  · rw [listNet_NodeIDs, listNet_NodeIDs, hnet, map_setUp_ids]
    simp
  · rw [listNet_UpNodeIDs, hnet]
    simp [List.filter_append, List.filter_cons]

/-- Effect of a sequence of `AddNode` calls without options, all returning no
error, on a registry over `listNet`. -/
theorem listNet_AddNodeSeq_effect (gens : List (NodeConfig Nat))
    (s : Simulation (List (Node Nat)) Nat Nat)
    (h : ∀ p ∈ (AddNodeSeq listNet gens s).1, p.2 = none) :
    ((AddNodeSeq listNet gens s).1.map (fun p => p.1)).Nodup ∧
    (∀ x ∈ (AddNodeSeq listNet gens s).1.map (fun p => p.1), x ∉ NodeIDs listNet s) ∧
    NodeIDs listNet (AddNodeSeq listNet gens s).2
      = NodeIDs listNet s ++ (AddNodeSeq listNet gens s).1.map (fun p => p.1) ∧
    ((AddNodeSeq listNet gens s).1.map (fun p => p.1)).length = gens.length := by
  induction gens generalizing s with
  | nil => simp [AddNodeSeq]
  | cons gen gens ih =>
    simp only [AddNodeSeq, List.mem_cons, forall_eq_or_imp] at h
    obtain ⟨h0, hrest⟩ := h
    obtain ⟨hfree, hids, _⟩ := listNet_AddNode_effect s gen h0
    obtain ⟨hnd, hdisj, hfinal, hlen⟩ := ih (AddNode listNet s gen []).2 hrest
    simp only [AddNodeSeq, List.map_cons, List.nodup_cons, List.mem_cons, forall_eq_or_imp,
      List.length_cons]
    refine ⟨⟨?_, hnd⟩, ⟨hfree, ?_⟩, ?_, by rw [hlen]⟩
    · intro hmem
      exact hdisj _ hmem (by rw [hids]; simp)
    · intro x hx hxs
      exact hdisj x hx (by rw [hids]; simp [hxs])
    · rw [hfinal, hids]
      simp

/-- `AddNode` in terms of the constructor call it makes. -/
theorem AddNode_eq_constructor [Inhabited ι] (N : Network σ ι ε ρ) (s : Simulation σ ι ρ)
    (gen : NodeConfig ρ) (opts : List (AddNodeOption ρ)) :
    AddNode N s gen opts
      = (match N.NewNodeWithConfig s.Net (AddNodeConf s gen opts) with
        | (.error err, net1) =>
          ((default, some (Error.net err)),
            { s with Net := net1,
                     calls := s.calls ++ [Call.NewNodeWithConfig (AddNodeConf s gen opts)] })
        | (.ok node, net1) =>
          ((node.ID, (N.Start net1 node.ID).1.map Error.net),
            { s with Net := (N.Start net1 node.ID).2,
                     calls := s.calls ++ [Call.NewNodeWithConfig (AddNodeConf s gen opts),
                                          Call.Start node.ID] })) := by
  rcases h : N.NewNodeWithConfig s.Net (AddNodeConf s gen opts) with ⟨res, net1⟩
  cases res with
  | error err => rw [AddNode_of_error N s gen opts err net1 h]
  | ok node => rw [AddNode_of_ok N s gen opts node net1 h]

theorem AddNodeConf_eq_foldl (s : Simulation σ ι ρ) (gen : NodeConfig ρ)
    (opts : List (AddNodeOption ρ)) :
    AddNodeConf s gen opts
      = { opts.foldl (fun conf o => o conf) gen with Services := s.serviceNames } := by
  simp only [AddNodeConf, applyOptions_eq_foldl]

/-- The identifier chosen by `randomNode` when the active identifiers are
pairwise distinct and some candidate is left. -/
theorem randomNodeID_of_nodup [DecidableEq ι] (N : Network σ ι ε ρ) (s : Simulation σ ι ρ)
    (r : Nat) (exclude : List ι) (hnd : (UpNodeIDs N s).Nodup)
    (hne : (UpNodeIDs N s).filter (fun x => decide (x ∉ exclude)) ≠ []) :
    ∃ id, randomNodeID N s r exclude = .ok id ∧
      ((UpNodeIDs N s).filter (fun x => decide (x ∉ exclude)))[
        r % ((UpNodeIDs N s).filter (fun x => decide (x ∉ exclude))).length]? = some id ∧
      id ∈ UpNodeIDs N s ∧ id ∉ exclude := by
  obtain ⟨t1, h1⟩ := randomNodeCandidates_nodup N s exclude hnd
  have hpos : 0 < ((UpNodeIDs N s).filter (fun x => decide (x ∉ exclude))).length :=
    List.length_pos.mpr hne
  have hk : r % ((UpNodeIDs N s).filter (fun x => decide (x ∉ exclude))).length
      < ((UpNodeIDs N s).filter (fun x => decide (x ∉ exclude))).length := Nat.mod_lt _ hpos
  have hget := List.getElem?_eq_getElem hk
  have hmem := List.getElem_mem hk
  refine ⟨_, ?_, hget, ?_, ?_⟩
  · simp only [randomNodeID, h1, Intn, Nat.ne_of_gt hpos, if_false, Slice.index, hk, if_true]
    rw [List.getElem?_append_left hk, hget]
  · exact (List.mem_filter.mp hmem).1
  · simpa using (List.mem_filter.mp hmem).2

theorem listNet_find_unique (net : List (Node Nat)) (m : Node Nat)
    (hnd : (net.map (fun n => n.ID)).Nodup) (hm : m ∈ net) :
    net.find? (fun n => n.ID == m.ID) = some m := by
  induction net with
  | nil => simp at hm
  | cons k rest ih =>
    have hk : k.ID ∉ rest.map (fun n => n.ID) := (List.nodup_cons.mp hnd).1
    have hrest : (rest.map (fun n => n.ID)).Nodup := (List.nodup_cons.mp hnd).2
    by_cases hid : k.ID = m.ID
    · have hmk : m = k := by
        rcases List.mem_cons.mp hm with h | h
        · exact h
        · exact absurd (List.mem_map.mpr ⟨m, h, hid.symm⟩) hk
      subst hmk
      simp
    · have hmr : m ∈ rest := by
        rcases List.mem_cons.mp hm with h | h
        · exact absurd (h ▸ rfl) hid
        · exact h
      rw [List.find?_cons_of_neg _ (by simpa using hid)]
      exact ih hrest hmr

theorem listNet_Stop_of_up (net : List (Node Nat)) (m : Node Nat)
    (hnd : (net.map (fun n => n.ID)).Nodup) (hm : m ∈ net) (hup : m.Up = true) :
    listNet.Stop net m
      = (none, net.map (fun k => if k.ID == m.ID then { k with Up := false } else k)) := by
  simp only [listNet, listNet_find_unique net m hnd hm, hup, if_true]

/-- On a registry over `listNet` with distinct identifiers, `StopNode` of an
active identifier returns no error and clears the `Up` flag of that node. -/
theorem listNet_StopNode_succeeds (s : Simulation (List (Node Nat)) Nat Nat) (id : Nat)
    (hnd : (NodeIDs listNet s).Nodup) (hup : id ∈ UpNodeIDs listNet s) :
    StopNode listNet s id
      = .ok (none,
          { s with Net := s.Net.map (fun k => if k.ID == id then { k with Up := false } else k),
                   calls := s.calls ++ [Call.Stop id] }) := by
  rw [listNet_NodeIDs] at hnd
  rw [listNet_UpNodeIDs] at hup
  obtain ⟨m, hmf, hmid⟩ := List.mem_map.mp hup
  have hm : m ∈ s.Net := (List.mem_filter.mp hmf).1
  have hmu : m.Up = true := by simpa using (List.mem_filter.mp hmf).2
  subst hmid
  have hg : listNet.GetNode s.Net m.ID = some m := by
    simp only [listNet]
    exact listNet_find_unique s.Net m hnd hm
  rw [StopNode_of_some listNet s m.ID m hg, listNet_Stop_of_up s.Net m hnd hm hmu]
  rfl

/-- On a registry over `listNet` with distinct identifiers whose nodes are all
`*adapters.SimNode`, `StopRandomNode` with some node active returns no error and
clears the `Up` flag of one active node. -/
theorem listNet_StopRandomNode_succeeds (s : Simulation (List (Node Nat)) Nat Nat) (r : Nat)
    (hnd : (NodeIDs listNet s).Nodup) (hne : UpNodeIDs listNet s ≠ [])
    (hsim : ∀ n ∈ listNet.GetNodes s.Net, n.isSimNode = true) :
    ∃ id ∈ UpNodeIDs listNet s,
      StopRandomNode listNet s r
        = .ok (none,
            { s with Net := s.Net.map (fun k => if k.ID == id then { k with Up := false } else k),
                     calls := s.calls ++ [Call.Stop id] }) := by
  have hnd1 := hnd
  rw [listNet_NodeIDs] at hnd1
  have hupnd : (UpNodeIDs listNet s).Nodup := by
    rw [listNet_UpNodeIDs]
    exact up_ids_nodup s.Net hnd1
  have hfil : (UpNodeIDs listNet s).filter (fun x => decide (x ∉ ([] : List Nat)))
      = UpNodeIDs listNet s := by simp
  obtain ⟨id, hid, _, hup, _⟩ :=
    randomNodeID_of_nodup listNet s r [] hupnd (by rw [hfil]; exact hne)
  refine ⟨id, hup, ?_⟩
  have hup1 := hup
  rw [listNet_UpNodeIDs] at hup1
  obtain ⟨m, hmf, hmid⟩ := List.mem_map.mp hup1
  have hm : m ∈ s.Net := (List.mem_filter.mp hmf).1
  have hmu : m.Up = true := by simpa using (List.mem_filter.mp hmf).2
  subst hmid
  have hg : listNet.GetNode s.Net m.ID = some m := by
    simp only [listNet]
    exact listNet_find_unique s.Net m hnd1 hm
  have hms : m.isSimNode = true := hsim m hm
  have hrn : randomNode listNet s r [] = .ok (some m) := by
    rw [randomNode_eq_of_randomNodeID, hid]
    simp only [hg, hms, if_true]
  simp only [StopRandomNode, hrn, listNet_Stop_of_up s.Net m hnd1 hm hmu]
  rfl

theorem isSimNode_after_clear (net : List (Node Nat)) (id : Nat)
    (h : ∀ n ∈ net, n.isSimNode = true) :
    ∀ n ∈ net.map (fun k => if k.ID == id then { k with Up := false } else k),
      n.isSimNode = true := by
  intro n hn
  obtain ⟨k, hk, hkn⟩ := List.mem_map.mp hn
  subst hkn
  split
  · exact h k hk
  · exact h k hk

end Lemmas

/-! ## Properties of the registry -/

section Claims

variable {σ ι ε ρ : Type}

/-- C1 (defect in the code): on a registry with no active node (no node at all,
or every node with `Up = false`) `StopRandomNode` does not return
`ErrNodeNotFound`; `randomNode` calls `rand.Intn(0)` and the call panics. -/
theorem StopRandomNode_no_active_panics [DecidableEq ι] (N : Network σ ι ε ρ)
    (s : Simulation σ ι ρ) (r : Nat) (h : ∀ n ∈ N.GetNodes s.Net, n.Up = false) :
    StopRandomNode N s r = (.error .intnInvalidArgument
      : Except Panic (Option (Error ε) × Simulation σ ι ρ)) := by
  have hup : UpNodeIDs N s = [] := by
    rw [UpNodeIDs_eq, List.map_eq_nil_iff, List.filter_eq_nil_iff]
    intro n hn
    simp [h n hn]
  simp only [StopRandomNode, randomNode_nil_of_no_up N s r hup]

/-- Instance of C1 at a registry with two stopped nodes. -/
theorem StopRandomNode_no_active_panics_witness :
    (∀ n ∈ listNet.GetNodes (listSim stoppedNodes).Net, n.Up = false) ∧
    StopRandomNode listNet (listSim stoppedNodes) 5 = .error .intnInvalidArgument :=
  ⟨by decide, StopRandomNode_no_active_panics listNet (listSim stoppedNodes) 5 (by decide)⟩

/-- C2 (defect in the code): when the active identifiers are pairwise distinct
and every one of them is in `exclude`, `randomNode` does not return nil; the
candidate slice is empty after the exclusion loops and `rand.Intn(0)` panics. -/
theorem randomNode_exclude_all_panics [DecidableEq ι] (N : Network σ ι ε ρ)
    (s : Simulation σ ι ρ) (r : Nat) (exclude : List ι) (hnd : (UpNodeIDs N s).Nodup)
    (hall : ∀ id ∈ UpNodeIDs N s, id ∈ exclude) :
    randomNode N s r exclude = .error .intnInvalidArgument := by
  obtain ⟨t1, h1⟩ := randomNodeCandidates_nodup N s exclude hnd
  have hnil : (UpNodeIDs N s).filter (fun x => decide (x ∉ exclude)) = [] := by
    rw [List.filter_eq_nil_iff]
    intro x hx
    simp [hall x hx]
  rw [hnil] at h1
  simp [randomNode, h1, Intn]

/-- Instance of C2: nodes 1 and 3 are active and both are excluded. -/
theorem randomNode_exclude_all_panics_witness :
    (UpNodeIDs listNet (listSim threeNodes)).Nodup ∧
    (∀ id ∈ UpNodeIDs listNet (listSim threeNodes), id ∈ [3, 1]) ∧
    randomNode listNet (listSim threeNodes) 7 [3, 1] = .error .intnInvalidArgument :=
  ⟨by decide, by decide,
    randomNode_exclude_all_panics listNet (listSim threeNodes) 7 [3, 1] (by decide) (by decide)⟩

/-- C3: `UpNodeIDs` returns the identifiers of the nodes whose `Up` flag is
true, in collaborator order: it is `NodeIDs` filtered by the flag, a sublist of
`NodeIDs`, and it is empty exactly when no node is up. -/
theorem UpNodeIDs_eq_filter_up [Inhabited ι] (N : Network σ ι ε ρ) (s : Simulation σ ι ρ) :
    UpNodeIDs N s = ((N.GetNodes s.Net).filter (fun n => n.Up)).map (fun n => n.ID) ∧
    UpNodeIDs N s
      = (((NodeIDs N s).zip ((N.GetNodes s.Net).map (fun n => n.Up))).filter
          (fun p => p.2)).map (fun p => p.1) ∧
    List.Sublist (UpNodeIDs N s) (NodeIDs N s) ∧
    (UpNodeIDs N s = [] ↔ ∀ n ∈ N.GetNodes s.Net, n.Up = false) := by
  refine ⟨UpNodeIDs_eq N s, ?_, ?_, ?_⟩
  · rw [UpNodeIDs_eq, NodeIDs_eq]
    generalize N.GetNodes s.Net = nodes
    induction nodes with
    | nil => rfl
    | cons n rest ih =>
      cases h : n.Up <;> simp [List.filter_cons, h, ih]
  · rw [UpNodeIDs_eq, NodeIDs_eq]
    exact List.Sublist.map _ (List.filter_sublist _)
  · rw [UpNodeIDs_eq, List.map_eq_nil_iff, List.filter_eq_nil_iff]
    constructor
    · intro h n hn
      simpa using h n hn
    · intro h n hn
      simp [h n hn]

/-- C4: `NodeIDs` has one entry per collaborator node, the entry at index `i`
being the identifier of the node at index `i`; no sorting, no deduplication, and
the empty sequence when there are no nodes. -/
theorem NodeIDs_eq_map_ID [Inhabited ι] (N : Network σ ι ε ρ) (s : Simulation σ ι ρ) :
    NodeIDs N s = (N.GetNodes s.Net).map (fun n => n.ID) ∧
    (NodeIDs N s).length = (N.GetNodes s.Net).length ∧
    (∀ i : Nat, (NodeIDs N s)[i]? = ((N.GetNodes s.Net)[i]?).map (fun n => n.ID)) ∧
    (N.GetNodes s.Net = [] → NodeIDs N s = []) := by
  refine ⟨NodeIDs_eq N s, ?_, ?_, ?_⟩
  · rw [NodeIDs_eq, List.length_map]
  · intro i
    rw [NodeIDs_eq, List.getElem?_map]
  · intro h
    rw [NodeIDs_eq, h, List.map_nil]

/-- C5: for every list of options, `AddNode` calls `NewNodeWithConfig` with a
configuration whose `Name` and `EnableMsgEvents` are those left by applying the
options left to right to the generated configuration, and its result is the
result of that constructor call; the last option writing a field wins, and
without options the generated values are kept. -/
theorem AddNode_applies_options_in_order [Inhabited ι] (N : Network σ ι ε ρ)
    (s : Simulation σ ι ρ) (gen : NodeConfig ρ) (opts : List (AddNodeOption ρ)) :
    (∃ conf : NodeConfig ρ,
      conf.Name = (opts.foldl (fun c o => o c) gen).Name ∧
      conf.EnableMsgEvents = (opts.foldl (fun c o => o c) gen).EnableMsgEvents ∧
      AddNode N s gen opts
        = (match N.NewNodeWithConfig s.Net conf with
          | (.error err, net1) =>
            ((default, some (Error.net err)),
              { s with Net := net1, calls := s.calls ++ [Call.NewNodeWithConfig conf] })
          | (.ok node, net1) =>
            ((node.ID, (N.Start net1 node.ID).1.map Error.net),
              { s with Net := (N.Start net1 node.ID).2,
                       calls := s.calls ++ [Call.NewNodeWithConfig conf, Call.Start node.ID] }))) ∧
    (∀ opts2 : List (AddNodeOption ρ),
      (AddNode N s gen opts2).2.Net
        = (match N.NewNodeWithConfig s.Net (AddNodeConf s gen opts2) with
          | (.error _, net1) => net1
          | (.ok node, net1) => (N.Start net1 node.ID).2)) ∧
    (∃ rest, (AddNode N s gen opts).2.calls
        = s.calls ++ Call.NewNodeWithConfig (AddNodeConf s gen opts) :: rest
      ∧ ∀ c ∈ rest, ∃ id, c = Call.Start id) ∧
    (AddNodeConf s gen opts).Name = (opts.foldl (fun conf o => o conf) gen).Name ∧
    (AddNodeConf s gen opts).EnableMsgEvents
      = (opts.foldl (fun conf o => o conf) gen).EnableMsgEvents ∧
    (∀ (opts1 : List (AddNodeOption ρ)) (name : String),
      (AddNodeConf s gen (opts1 ++ [AddNodeWithName name])).Name = name) ∧
    (∀ (opts1 : List (AddNodeOption ρ)) (enable : Bool),
      (AddNodeConf s gen (opts1 ++ [AddNodeWithMsgEvents enable])).EnableMsgEvents = enable) ∧
    (AddNodeConf s gen [AddNodeWithName "a", AddNodeWithName "b"]).Name = "b" ∧
    (AddNodeConf s gen []).Name = gen.Name ∧
    (AddNodeConf s gen []).EnableMsgEvents = gen.EnableMsgEvents := by
  refine ⟨⟨AddNodeConf s gen opts, ?_, ?_, AddNode_eq_constructor N s gen opts⟩, ?_, ?_, ?_, ?_,
    ?_, ?_, rfl, rfl, rfl⟩
  · simp [AddNodeConf, applyOptions_eq_foldl]
  · simp [AddNodeConf, applyOptions_eq_foldl]
  · intro opts2
    rw [AddNode_eq_constructor]
    rcases N.NewNodeWithConfig s.Net (AddNodeConf s gen opts2) with ⟨res, net1⟩
    cases res <;> rfl
  · rcases AddNode_calls N s gen opts with h | ⟨id, h⟩
    · exact ⟨[], by rw [h], by simp⟩
    · exact ⟨[Call.Start id], by rw [h], by simp⟩
  · simp [AddNodeConf, applyOptions_eq_foldl]
  · simp [AddNodeConf, applyOptions_eq_foldl]
  · intro opts1 name
    simp [AddNodeConf, applyOptions_append, applyOptions, AddNodeWithName]
  · intro opts1 enable
    simp [AddNodeConf, applyOptions_append, applyOptions, AddNodeWithMsgEvents]

/-- C6: whatever the options write, also into `Services`, `AddNode` calls
`NewNodeWithConfig` with a configuration whose `Services` equal the registry's
`serviceNames`, and its result is the result of that constructor call. -/
theorem AddNode_services_eq_serviceNames [Inhabited ι] (N : Network σ ι ε ρ)
    (s : Simulation σ ι ρ) (gen : NodeConfig ρ) (opts : List (AddNodeOption ρ)) :
    (∃ conf : NodeConfig ρ,
      conf.Services = s.serviceNames ∧
      AddNode N s gen opts
        = (match N.NewNodeWithConfig s.Net conf with
          | (.error err, net1) =>
            ((default, some (Error.net err)),
              { s with Net := net1, calls := s.calls ++ [Call.NewNodeWithConfig conf] })
          | (.ok node, net1) =>
            ((node.ID, (N.Start net1 node.ID).1.map Error.net),
              { s with Net := (N.Start net1 node.ID).2,
                       calls := s.calls ++ [Call.NewNodeWithConfig conf, Call.Start node.ID] }))) ∧
    (∀ services : List String, ∃ conf : NodeConfig ρ,
      conf.Services = s.serviceNames ∧
      AddNode N s gen (opts ++ [((fun o => { o with Services := services }) : AddNodeOption ρ)])
        = (match N.NewNodeWithConfig s.Net conf with
          | (.error err, net1) =>
            ((default, some (Error.net err)),
              { s with Net := net1, calls := s.calls ++ [Call.NewNodeWithConfig conf] })
          | (.ok node, net1) =>
            ((node.ID, (N.Start net1 node.ID).1.map Error.net),
              { s with Net := (N.Start net1 node.ID).2,
                       calls := s.calls ++ [Call.NewNodeWithConfig conf, Call.Start node.ID] }))) ∧
    (∃ conf rest, (AddNode N s gen opts).2.calls = s.calls ++ Call.NewNodeWithConfig conf :: rest
      ∧ (∀ c ∈ rest, ∃ id, c = Call.Start id)
      ∧ conf.Services = s.serviceNames
      ∧ ∀ services : List String,
          (AddNodeConf s gen (opts ++ [fun o => { o with Services := services }])).Services
            = s.serviceNames) := by
  refine ⟨⟨AddNodeConf s gen opts, rfl, AddNode_eq_constructor N s gen opts⟩, ?_, ?_⟩
  · intro services
    exact ⟨AddNodeConf s gen
      (opts ++ [((fun o => { o with Services := services }) : AddNodeOption ρ)]),
      rfl, AddNode_eq_constructor N s gen _⟩
  · rcases AddNode_calls N s gen opts with h | ⟨id, h⟩
    · exact ⟨AddNodeConf s gen opts, [], by rw [h], by simp, rfl, fun _ => rfl⟩
    · exact ⟨AddNodeConf s gen opts, [Call.Start id], by rw [h], by simp, rfl, fun _ => rfl⟩

/-- C7: when `NewNodeWithConfig` fails with `err`, `AddNode` returns the zero
identifier with exactly `err`, adds only the constructor call to the history (no
`Start`), and leaves the pivot reference and the service names as they were. -/
theorem AddNode_constructor_failure [Inhabited ι] (N : Network σ ι ε ρ)
    (s : Simulation σ ι ρ) (gen : NodeConfig ρ) (opts : List (AddNodeOption ρ)) (err : ε)
    (net1 : σ) (h : N.NewNodeWithConfig s.Net (AddNodeConf s gen opts) = (.error err, net1)) :
    (AddNode N s gen opts).1 = (default, some (Error.net err)) ∧
    (AddNode N s gen opts).2.calls
      = s.calls ++ [Call.NewNodeWithConfig (AddNodeConf s gen opts)] ∧
    (∀ id, Call.Start id ∉ (AddNode N s gen opts).2.calls.drop s.calls.length) ∧
    (AddNode N s gen opts).2.pivotNodeID = s.pivotNodeID ∧
    (AddNode N s gen opts).2.serviceNames = s.serviceNames ∧
    (AddNode N s gen opts).2.Net = net1 := by
  rw [AddNode_of_error N s gen opts err net1 h]
  refine ⟨rfl, rfl, ?_, rfl, rfl, rfl⟩
  intro id
  simp

/-- Instance of C7: the generated identifier 3 is already taken, so creation
fails. -/
theorem AddNode_constructor_failure_witness :
    listNet.NewNodeWithConfig (listSim threeNodes).Net
        (AddNodeConf (listSim threeNodes) (genConf 3) [AddNodeWithName "a"])
      = (.error .nodeExists, threeNodes) ∧
    (AddNode listNet (listSim threeNodes) (genConf 3) [AddNodeWithName "a"]).1
      = (0, some (Error.net NetError.nodeExists)) ∧
    (AddNode listNet (listSim threeNodes) (genConf 3) [AddNodeWithName "a"]).2.pivotNodeID
      = none :=
  have h := AddNode_constructor_failure listNet (listSim threeNodes) (genConf 3)
    [AddNodeWithName "a"] NetError.nodeExists threeNodes rfl
  ⟨rfl, h.1, h.2.2.2.1⟩

/-- C8: when `NewNodeWithConfig` returns `node`, `AddNode` calls `Start` once,
with `node.ID`, and returns `node.ID` together with the result of that call; if
`Start` fails with `e` the result is `(node.ID, e)`. -/
theorem AddNode_constructor_success [Inhabited ι] (N : Network σ ι ε ρ)
    (s : Simulation σ ι ρ) (gen : NodeConfig ρ) (opts : List (AddNodeOption ρ)) (node : Node ι)
    (net1 : σ) (h : N.NewNodeWithConfig s.Net (AddNodeConf s gen opts) = (.ok node, net1)) :
    (AddNode N s gen opts).1 = (node.ID, (N.Start net1 node.ID).1.map Error.net) ∧
    (AddNode N s gen opts).2.calls
      = s.calls ++ [Call.NewNodeWithConfig (AddNodeConf s gen opts), Call.Start node.ID] ∧
    (AddNode N s gen opts).2.Net = (N.Start net1 node.ID).2 ∧
    (∀ e, (N.Start net1 node.ID).1 = some e →
      (AddNode N s gen opts).1 = (node.ID, some (Error.net e))) ∧
    ((N.Start net1 node.ID).1 = none → (AddNode N s gen opts).1 = (node.ID, none)) := by
  rw [AddNode_of_ok N s gen opts node net1 h]
  refine ⟨rfl, rfl, rfl, ?_, ?_⟩
  · intro e he
    simp [he]
  · intro he
    simp [he]

/-- Instance of C8 on a collaborator whose `Start` fails: node 7 is created and
its identifier is returned with the start error. -/
theorem AddNode_constructor_success_witness :
    failingStartNet.NewNodeWithConfig (listSim threeNodes).Net
        (AddNodeConf (listSim threeNodes) (genConf 7) [])
      = (.ok { ID := 7, Up := false, isSimNode := true },
          threeNodes ++ [{ ID := 7, Up := false, isSimNode := true }]) ∧
    (AddNode failingStartNet (listSim threeNodes) (genConf 7) []).1
      = (7, some (Error.net NetError.startFailed)) ∧
    (AddNode failingStartNet (listSim threeNodes) (genConf 7) []).2.calls
      = [Call.NewNodeWithConfig (AddNodeConf (listSim threeNodes) (genConf 7) []), Call.Start 7] :=
  have h := AddNode_constructor_success failingStartNet (listSim threeNodes) (genConf 7) []
    (Node.mk 7 false true) (threeNodes ++ [Node.mk 7 false true]) rfl
  ⟨rfl, h.1, h.2.1⟩

/-- C9: in every state, `SetPivotNode X` followed by `PivotNodeID` returns `X`
(present), and a later `SetPivotNode Y` replaces it, so the next read returns
`Y`. -/
theorem SetPivotNode_then_PivotNodeID (s : Simulation σ ι ρ) (X Y : ι) :
    (PivotNodeID (SetPivotNode s X)).1 = some X ∧
    (PivotNodeID (SetPivotNode (PivotNodeID (SetPivotNode s X)).2 Y)).1 = some Y ∧
    (PivotNodeID (SetPivotNode (SetPivotNode s X) Y)).1 = some Y :=
  ⟨rfl, rfl, rfl⟩

/-- C10: `PivotNodeID` always returns, leaves the registry state unchanged, so
two consecutive calls return the same result, and it returns nil on every state
reached from a registry with an unset pivot by calls other than
`SetPivotNode`. -/
theorem PivotNodeID_read_only [DecidableEq ι] [Inhabited ι] (N : Network σ ι ε ρ)
    (s : Simulation σ ι ρ) :
    (PivotNodeID s).2 = s ∧
    (PivotNodeID (PivotNodeID s).2).1 = (PivotNodeID s).1 ∧
    (s.pivotNodeID = none → (PivotNodeID s).1 = none) ∧
    (∀ s0 : Simulation σ ι ρ, s0.pivotNodeID = none →
      Relation.ReflTransGen (StepWithoutSetPivot N) s0 s → (PivotNodeID s).1 = none) :=
  ⟨rfl, rfl, fun h => h, fun s0 h0 h => pivot_unset_of_no_SetPivotNode N s0 s h0 h⟩

/-- C11 (defect in the code): when `GetNode` returns nil for the identifier,
`StopNode` does not return a not-found error; the call of `Stop` through the nil
handle panics.  When `GetNode` returns a handle, `StopNode` returns the result
of that handle's `Stop` unchanged. -/
theorem StopNode_unresolved_panics (N : Network σ ι ε ρ) (s : Simulation σ ι ρ) (id : ι) :
    (N.GetNode s.Net id = none → StopNode N s id = .error .nilPointerDereference) ∧
    (∀ n, N.GetNode s.Net id = some n →
      StopNode N s id
        = .ok ((N.Stop s.Net n).1.map Error.net,
            { s with Net := (N.Stop s.Net n).2, calls := s.calls ++ [Call.Stop n.ID] })) := by
  constructor
  · intro h
    simp only [StopNode, h]
  · intro n h
    exact StopNode_of_some N s id n h

/-- Instance of C11: identifier 9 names no node. -/
theorem StopNode_unresolved_panics_witness :
    listNet.GetNode (listSim threeNodes).Net 9 = none ∧
    StopNode listNet (listSim threeNodes) 9 = .error .nilPointerDereference :=
  ⟨rfl, (StopNode_unresolved_panics listNet (listSim threeNodes) 9).1 rfl⟩

/-- C12: when the active identifiers are pairwise distinct, for every exclude
list the candidate slice of `randomNode` is the active list with the excluded
identifiers filtered out, in order; when it is non-empty, `randomNode` resolves
the candidate at the drawn index, which is active and is not in `exclude`. -/
theorem randomNode_candidates_and_choice [DecidableEq ι] (N : Network σ ι ε ρ)
    (s : Simulation σ ι ρ) (r : Nat) (exclude : List ι) (hnd : (UpNodeIDs N s).Nodup) :
    ∃ ids, randomNodeCandidates N s exclude = .ok ids ∧
      ids.toList = (UpNodeIDs N s).filter (fun x => decide (x ∉ exclude)) ∧
      (ids.toList = [] → randomNode N s r exclude = .error .intnInvalidArgument) ∧
      (ids.toList ≠ [] →
        ∃ id, randomNodeID N s r exclude = .ok id ∧
          ids.toList[r % ids.toList.length]? = some id ∧
          id ∈ UpNodeIDs N s ∧ id ∉ exclude ∧
          randomNode N s r exclude
            = (match N.GetNode s.Net id with
              | none => .error .nilPointerDereference
              | some n => .ok (if n.isSimNode then some n else none))) := by
  obtain ⟨t1, h1⟩ := randomNodeCandidates_nodup N s exclude hnd
  refine ⟨_, h1, by simp [Slice.toList], ?_, ?_⟩
  · simp only [Slice.toList, take_length_append]
    intro hnil
    rw [hnil] at h1
    simp [randomNode, h1, Intn]
  · simp only [Slice.toList, take_length_append]
    intro hne
    obtain ⟨id, hid, hget, hup, hex⟩ := randomNodeID_of_nodup N s r exclude hnd hne
    refine ⟨id, hid, hget, hup, hex, ?_⟩
    rw [randomNode_eq_of_randomNodeID, hid]

/-- Instance of C12: three active nodes, exclude list with a repeat and an
identifier that is not active; the draw 5 selects node 3. -/
theorem randomNode_candidates_and_choice_witness :
    (UpNodeIDs listNet (listSim activeNodes)).Nodup ∧
    randomNodeCandidates listNet (listSim activeNodes) [2, 9, 2]
      = .ok { arr := [1, 3, 3], len := 2 } ∧
    Slice.toList { arr := [1, 3, 3], len := 2 } = [1, 3] ∧
    (UpNodeIDs listNet (listSim activeNodes)).filter (fun x => decide (x ∉ [2, 9, 2])) = [1, 3] ∧
    [1, 3][5 % [1, 3].length]? = some 3 ∧
    randomNodeID listNet (listSim activeNodes) 5 [2, 9, 2] = .ok 3 ∧
    3 ∈ UpNodeIDs listNet (listSim activeNodes) ∧ 3 ∉ [2, 9, 2] ∧
    listNet.GetNode (listSim activeNodes).Net 3 = some { ID := 3, Up := true, isSimNode := true } ∧
    randomNode listNet (listSim activeNodes) 5 [2, 9, 2]
      = .ok (some { ID := 3, Up := true, isSimNode := true }) := by
  obtain ⟨ids, hc, htl, _, hch⟩ :=
    randomNode_candidates_and_choice listNet (listSim activeNodes) 5 [2, 9, 2] (by decide)
  have hcand : randomNodeCandidates listNet (listSim activeNodes) [2, 9, 2]
      = .ok { arr := [1, 3, 3], len := 2 } := rfl
  have hids : ids = { arr := [1, 3, 3], len := 2 } := by
    rw [hcand] at hc
    injection hc with hc
    exact hc.symm
  subst hids
  obtain ⟨id, hid, hget, hup, hex, hrn⟩ := hch (by decide)
  have h3 : id = 3 := by
    have : Slice.toList { arr := [1, 3, 3], len := 2 } = [1, 3] := rfl
    rw [this] at hget
    have hg : [1, 3][5 % [1, 3].length]? = some 3 := rfl
    rw [hg] at hget
    injection hget with hget
    exact hget.symm
  subst h3
  exact ⟨by decide, hcand, rfl, rfl, rfl, hid, hup, hex, rfl, by rw [hrn]; rfl⟩

/-- C13: the option of `AddNodeWithName n` sets `Name` to `n` and the option of
`AddNodeWithMsgEvents b` sets `EnableMsgEvents` to `b`; each leaves every other
field of the configuration unchanged. -/
theorem AddNodeWithName_AddNodeWithMsgEvents_frame (conf : NodeConfig ρ) (n : String)
    (b : Bool) :
    AddNodeWithName n conf = { conf with Name := n } ∧
    (AddNodeWithName n conf).Name = n ∧
    (AddNodeWithName n conf).EnableMsgEvents = conf.EnableMsgEvents ∧
    (AddNodeWithName n conf).Services = conf.Services ∧
    (AddNodeWithName n conf).other = conf.other ∧
    AddNodeWithMsgEvents b conf = { conf with EnableMsgEvents := b } ∧
    (AddNodeWithMsgEvents b conf).EnableMsgEvents = b ∧
    (AddNodeWithMsgEvents b conf).Name = conf.Name ∧
    (AddNodeWithMsgEvents b conf).Services = conf.Services ∧
    (AddNodeWithMsgEvents b conf).other = conf.other :=
  ⟨rfl, rfl, rfl, rfl, rfl, rfl, rfl, rfl, rfl, rfl⟩

/-- C14, over the collaborator `listNet`: `StopNode` of an active identifier and
`StopRandomNode` with some node active return no error; after a successful stop
through either, the node was active, its identifier is no longer in
`UpNodeIDs`, and `NodeIDs` is unchanged; from a registry with three nodes, all
active and with distinct identifiers, two `StopRandomNode` calls succeed and
leave `UpNodeIDs` with length 1 and `NodeIDs` with length 3. -/
theorem stop_removes_from_UpNodeIDs (s : Simulation (List (Node Nat)) Nat Nat) :
    (∀ id s1, StopNode listNet s id = .ok (none, s1) →
      id ∈ UpNodeIDs listNet s ∧ id ∉ UpNodeIDs listNet s1 ∧
      NodeIDs listNet s1 = NodeIDs listNet s) ∧
    (∀ r s1, StopRandomNode listNet s r = .ok (none, s1) →
      ∃ n, randomNode listNet s r [] = .ok (some n) ∧
        n.ID ∈ UpNodeIDs listNet s ∧ n.ID ∉ UpNodeIDs listNet s1 ∧
        NodeIDs listNet s1 = NodeIDs listNet s) ∧
    (∀ r1 r2 s1 s2, (NodeIDs listNet s).Nodup →
      (NodeIDs listNet s).length = 3 → (UpNodeIDs listNet s).length = 3 →
      StopRandomNode listNet s r1 = .ok (none, s1) →
      StopRandomNode listNet s1 r2 = .ok (none, s2) →
      (UpNodeIDs listNet s2).length = 1 ∧ (NodeIDs listNet s2).length = 3) ∧
    (∀ id, (NodeIDs listNet s).Nodup → id ∈ UpNodeIDs listNet s →
      ∃ s1, StopNode listNet s id = .ok (none, s1) ∧
        id ∉ UpNodeIDs listNet s1 ∧ NodeIDs listNet s1 = NodeIDs listNet s ∧
        (UpNodeIDs listNet s1).length + 1 = (UpNodeIDs listNet s).length) ∧
    (∀ r, (NodeIDs listNet s).Nodup → UpNodeIDs listNet s ≠ [] →
      (∀ n ∈ listNet.GetNodes s.Net, n.isSimNode = true) →
      ∃ s1 n, randomNode listNet s r [] = .ok (some n) ∧
        StopRandomNode listNet s r = .ok (none, s1) ∧
        n.ID ∈ UpNodeIDs listNet s ∧ n.ID ∉ UpNodeIDs listNet s1 ∧
        NodeIDs listNet s1 = NodeIDs listNet s ∧
        (UpNodeIDs listNet s1).length + 1 = (UpNodeIDs listNet s).length) ∧
    (∀ r1 r2, (NodeIDs listNet s).Nodup →
      (∀ n ∈ listNet.GetNodes s.Net, n.isSimNode = true) →
      (NodeIDs listNet s).length = 3 → (UpNodeIDs listNet s).length = 3 →
      ∃ s1 s2, StopRandomNode listNet s r1 = .ok (none, s1) ∧
        StopRandomNode listNet s1 r2 = .ok (none, s2) ∧
        (UpNodeIDs listNet s2).length = 1 ∧ (NodeIDs listNet s2).length = 3) := by
  refine ⟨?_, ?_, ?_, ?_, ?_, ?_⟩
  · intro id s1 h
    obtain ⟨h1, h2, h3, _⟩ := listNet_StopNode_effect s s1 id h
    exact ⟨h1, h2, h3⟩
  · intro r s1 h
    obtain ⟨n, h0, h1, h2, h3, _⟩ := listNet_StopRandomNode_effect s s1 r h
    exact ⟨n, h0, h1, h2, h3⟩
  · intro r1 r2 s1 s2 hnd hlen hup h1 h2
    obtain ⟨_, _, _, _, hids1, hl1⟩ := listNet_StopRandomNode_effect s s1 r1 h1
    obtain ⟨_, _, _, _, hids2, hl2⟩ := listNet_StopRandomNode_effect s1 s2 r2 h2
    have e1 := hl1 hnd
    have e2 := hl2 (hids1 ▸ hnd)
    refine ⟨by omega, ?_⟩
    rw [hids2, hids1, hlen]
  · intro id hnd hup
    have hs := listNet_StopNode_succeeds s id hnd hup
    obtain ⟨_, h2, h3, h4⟩ := listNet_StopNode_effect s _ id hs
    exact ⟨_, hs, h2, h3, h4 hnd⟩
  · intro r hnd hne hsim
    obtain ⟨id, _, hs⟩ := listNet_StopRandomNode_succeeds s r hnd hne hsim
    obtain ⟨n, h0, h1, h2, h3, h4⟩ := listNet_StopRandomNode_effect s _ r hs
    exact ⟨_, n, h0, hs, h1, h2, h3, h4 hnd⟩
  · intro r1 r2 hnd hsim hlen hup
    have hne : UpNodeIDs listNet s ≠ [] := by
      intro h
      rw [h] at hup
      simp at hup
    obtain ⟨id1, _, hs1⟩ := listNet_StopRandomNode_succeeds s r1 hnd hne hsim
    obtain ⟨_, _, _, _, hids1, hl1⟩ := listNet_StopRandomNode_effect s _ r1 hs1
    have e1 := hl1 hnd
    have hnd1 := hnd
    rw [← hids1] at hnd1
    have hne1 : UpNodeIDs listNet
        { s with Net := s.Net.map (fun k => if k.ID == id1 then { k with Up := false } else k),
                 calls := s.calls ++ [Call.Stop id1] } ≠ [] := by
      intro h
      rw [h] at e1
      simp at e1
      omega
    have hsim1 := isSimNode_after_clear s.Net id1 hsim
    obtain ⟨id2, _, hs2⟩ := listNet_StopRandomNode_succeeds _ r2 hnd1 hne1 hsim1
    obtain ⟨_, _, _, _, hids2, hl2⟩ := listNet_StopRandomNode_effect _ _ r2 hs2
    have e2 := hl2 hnd1
    refine ⟨_, _, hs1, hs2, by omega, ?_⟩
    rw [hids2, hids1, hlen]

/-- Instance of C14: `StopNode 1` on nodes 1 and 3 active, and two
`StopRandomNode` calls on three active nodes. -/
theorem stop_removes_from_UpNodeIDs_witness :
    (NodeIDs listNet (listSim threeNodes)).Nodup ∧
    1 ∈ UpNodeIDs listNet (listSim threeNodes) ∧
    StopNode listNet (listSim threeNodes) 1
      = .ok (none,
          { listSim threeNodes with
            Net := [{ ID := 1, Up := false, isSimNode := true },
                    { ID := 2, Up := false, isSimNode := true },
                    { ID := 3, Up := true, isSimNode := true }],
            calls := [Call.Stop 1] }) ∧
    (∃ s1, StopNode listNet (listSim threeNodes) 1 = .ok (none, s1) ∧
      1 ∉ UpNodeIDs listNet s1 ∧ NodeIDs listNet s1 = NodeIDs listNet (listSim threeNodes) ∧
      (UpNodeIDs listNet s1).length + 1 = (UpNodeIDs listNet (listSim threeNodes)).length) ∧
    (NodeIDs listNet (listSim activeNodes)).Nodup ∧
    (∀ n ∈ listNet.GetNodes (listSim activeNodes).Net, n.isSimNode = true) ∧
    (NodeIDs listNet (listSim activeNodes)).length = 3 ∧
    (UpNodeIDs listNet (listSim activeNodes)).length = 3 ∧
    (∃ s1 s2, StopRandomNode listNet (listSim activeNodes) 4 = .ok (none, s1) ∧
      StopRandomNode listNet s1 7 = .ok (none, s2) ∧
      (UpNodeIDs listNet s2).length = 1 ∧ (NodeIDs listNet s2).length = 3) ∧
    (∃ s1 s2, StopRandomNode listNet (listSim activeNodes) 4 = .ok (none, s1) ∧
      StopRandomNode listNet s1 7 = .ok (none, s2) ∧
      UpNodeIDs listNet s1 = [1, 3] ∧ UpNodeIDs listNet s2 = [1] ∧
      NodeIDs listNet s2 = [1, 2, 3]) :=
  ⟨by decide, by decide, rfl,
    (stop_removes_from_UpNodeIDs (listSim threeNodes)).2.2.2.1 1 (by decide) (by decide),
    by decide, by decide, rfl, rfl,
    (stop_removes_from_UpNodeIDs (listSim activeNodes)).2.2.2.2.2 4 7 (by decide) (by decide) rfl rfl,
    ⟨_, _, rfl, rfl, rfl, rfl, rfl⟩⟩

/-- C15, over the collaborator `listNet`: after a call of `AddNode` without
options that returns no error, the returned identifier is in `NodeIDs` and in
`UpNodeIDs` and `NodeIDs` has grown by that one entry; the identifiers returned
by a sequence of such calls are pairwise distinct and `NodeIDs` grows by one
entry for each call. -/
theorem AddNode_ids_listed_and_distinct (s : Simulation (List (Node Nat)) Nat Nat) :
    (∀ gen : NodeConfig Nat, (AddNode listNet s gen []).1.2 = none →
      (AddNode listNet s gen []).1.1 ∈ NodeIDs listNet (AddNode listNet s gen []).2 ∧
      (AddNode listNet s gen []).1.1 ∈ UpNodeIDs listNet (AddNode listNet s gen []).2 ∧
      NodeIDs listNet (AddNode listNet s gen []).2
        = NodeIDs listNet s ++ [(AddNode listNet s gen []).1.1]) ∧
    (∀ gens : List (NodeConfig Nat),
      (∀ p ∈ (AddNodeSeq listNet gens s).1, p.2 = none) →
      ((AddNodeSeq listNet gens s).1.map (fun p => p.1)).Nodup ∧
      NodeIDs listNet (AddNodeSeq listNet gens s).2
        = NodeIDs listNet s ++ (AddNodeSeq listNet gens s).1.map (fun p => p.1) ∧
      (NodeIDs listNet (AddNodeSeq listNet gens s).2).length
        = (NodeIDs listNet s).length + gens.length) := by
  constructor
  · intro gen h
    obtain ⟨_, hids, hup⟩ := listNet_AddNode_effect s gen h
    exact ⟨by rw [hids]; simp, hup, hids⟩
  · intro gens h
    obtain ⟨hnd, _, hfinal, hlen⟩ := listNet_AddNodeSeq_effect gens s h
    exact ⟨hnd, hfinal, by rw [hfinal, List.length_append, hlen]⟩

/-- Instance of C15: two `AddNode` calls with fresh identifiers 7 and 8. -/
theorem AddNode_ids_listed_and_distinct_witness :
    (AddNodeSeq listNet [genConf 7, genConf 8] (listSim threeNodes)).1 = [(7, none), (8, none)] ∧
    ((AddNodeSeq listNet [genConf 7, genConf 8] (listSim threeNodes)).1.map (fun p => p.1)).Nodup ∧
    NodeIDs listNet (AddNodeSeq listNet [genConf 7, genConf 8] (listSim threeNodes)).2
      = NodeIDs listNet (listSim threeNodes)
        ++ (AddNodeSeq listNet [genConf 7, genConf 8] (listSim threeNodes)).1.map (fun p => p.1) ∧
    (NodeIDs listNet (AddNodeSeq listNet [genConf 7, genConf 8] (listSim threeNodes)).2).length
      = (NodeIDs listNet (listSim threeNodes)).length + 2 :=
  ⟨rfl, (AddNode_ids_listed_and_distinct (listSim threeNodes)).2 [genConf 7, genConf 8]
    (by decide)⟩

/-- C17: when the handle of the selected identifier is not a
`*adapters.SimNode`, `randomNode` returns nil without panicking, and
`StopRandomNode` returns `ErrNodeNotFound` and leaves the state, including the
history of collaborator calls, unchanged. -/
theorem randomNode_not_SimNode_absent [DecidableEq ι] (N : Network σ ι ε ρ)
    (s : Simulation σ ι ρ) (r : Nat) (exclude : List ι) (id : ι) (n : Node ι)
    (hid : randomNodeID N s r exclude = .ok id) (hg : N.GetNode s.Net id = some n)
    (hs : n.isSimNode = false) :
    randomNode N s r exclude = .ok none ∧
    (exclude = [] → StopRandomNode N s r
      = (.ok (some Error.ErrNodeNotFound, s)
          : Except Panic (Option (Error ε) × Simulation σ ι ρ))) := by
  have h1 : randomNode N s r exclude = .ok none := by
    rw [randomNode_eq_of_randomNodeID]
    simp only [hid, hg, hs]
    rfl
  refine ⟨h1, ?_⟩
  intro he
  subst he
  simp only [StopRandomNode, h1]

/-- Instance of C17: the only active node is not a `*adapters.SimNode`. -/
theorem randomNode_not_SimNode_absent_witness :
    randomNodeID listNet (listSim foreignNodes) 4 [] = .ok 1 ∧
    listNet.GetNode (listSim foreignNodes).Net 1 = some { ID := 1, Up := true, isSimNode := false } ∧
    randomNode listNet (listSim foreignNodes) 4 [] = .ok none ∧
    StopRandomNode listNet (listSim foreignNodes) 4
      = .ok (some Error.ErrNodeNotFound, listSim foreignNodes) :=
  have h := randomNode_not_SimNode_absent listNet (listSim foreignNodes) 4 [] 1
    (Node.mk 1 true false) rfl rfl rfl
  ⟨rfl, rfl, h.1, h.2 rfl⟩

/-- C20: `SetPivotNode` changes only the pivot reference: `NodeIDs`, `UpNodeIDs`,
the service names, the network and the call history are the same before and
after, for every identifier; applying it twice with the same identifier gives
the same state as applying it once. -/
theorem SetPivotNode_frame [Inhabited ι] (N : Network σ ι ε ρ) (s : Simulation σ ι ρ)
    (X : ι) :
    NodeIDs N (SetPivotNode s X) = NodeIDs N s ∧
    UpNodeIDs N (SetPivotNode s X) = UpNodeIDs N s ∧
    (SetPivotNode s X).serviceNames = s.serviceNames ∧
    (SetPivotNode s X).Net = s.Net ∧
    (SetPivotNode s X).calls = s.calls ∧
    SetPivotNode (SetPivotNode s X) X = SetPivotNode s X :=
  ⟨rfl, rfl, rfl, rfl, rfl, rfl⟩

end Claims

end Netsim
